import Mathlib

/-!
Shallow embedding of the borrowing / reservation lifecycle of the
Full_Library_Management repository: the `Book`, `Borrow` and `Reservation`
mongoose models, their instance and static methods, and the Express route
handlers that drive them.  Times are milliseconds since the epoch (`Int`),
money is in integer cents (the JS code uses floating point with the
decimal defaults 1.00 and 50.00; every product in the fine formula stays
an exact multiple of a cent), and the document store is a record of lists
mirroring the MongoDB collections.
-/

/-! ## Configuration (server/config, part_010) -/

def FINE_PER_DAY : Int := 100
def MAX_FINE_AMOUNT : Int := 5000
def BORROW_DURATION_DAYS : Int := 14
def RENEWAL_DURATION_DAYS : Int := 7
def MAX_RENEWALS : Nat := 2

/-- Milliseconds in one day, the `1000 * 60 * 60 * 24` of the source. -/
def dayMs : Int := 86400000

/-- `Math.min`. -/
def intMin (a b : Int) : Int := if a ≤ b then a else b

/-- `Math.max`. -/
def intMax (a b : Int) : Int := if a ≤ b then b else a

/-- Integer ceiling division for positive divisor: `Math.ceil(a / b)`. -/
def ceilDiv (a b : Int) : Int := Int.fdiv (a + b - 1) b

/-- `Math.ceil((now - dueDate) / dayMs)`, the days-overdue count. -/
def daysOverdueAt (now dueDate : Int) : Int := ceilDiv (now - dueDate) dayMs

/-! ## Book model (Book.js) -/

structure BookStats where
  totalBorrows : Nat
  totalReservations : Nat
deriving Repr, DecidableEq

structure Book where
  id : Nat
  totalCopies : Int
  availableCopies : Int
  isActive : Bool
  statistics : BookStats
deriving Repr, DecidableEq

/-- `availableCopies > 0 && this.isActive`. -/
def Book.isBookAvailable (b : Book) : Bool :=
  decide (0 < b.availableCopies) && b.isActive

/-- Decrement a copy if one is available; also bumps `statistics.totalBorrows`.
Returns the updated book and the boolean the method returns. -/
def Book.borrowCopy (b : Book) : Book × Bool :=
  if 0 < b.availableCopies then
    ({ b with availableCopies := b.availableCopies - 1,
              statistics := { b.statistics with
                totalBorrows := b.statistics.totalBorrows + 1 } }, true)
  else (b, false)

/-- Increment a copy, guarded by `availableCopies < totalCopies`. -/
def Book.returnCopy (b : Book) : Book × Bool :=
  if b.availableCopies < b.totalCopies then
    ({ b with availableCopies := b.availableCopies + 1 }, true)
  else (b, false)

/-- `reserveCopy`: bump the reservation counter (statistics only). -/
def Book.reserveCopy (b : Book) : Book :=
  { b with statistics := { b.statistics with
      totalReservations := b.statistics.totalReservations + 1 } }

/-- `cancelReservation`: decrement the reservation counter if positive. -/
def Book.cancelReservation (b : Book) : Book :=
  if 0 < b.statistics.totalReservations then
    { b with statistics := { b.statistics with
        totalReservations := b.statistics.totalReservations - 1 } }
  else b

/-- Book pre-save middleware: clamp `availableCopies` to `totalCopies`. -/
def Book.applySave (b : Book) : Book :=
  if b.totalCopies < b.availableCopies then
    { b with availableCopies := b.totalCopies }
  else b

/-! ## Borrow model (Borrow.js) -/

inductive BorrowStatus where
  | borrowed
  | returned
  | overdue
deriving Repr, DecidableEq

structure RenewalEntry where
  renewalDate : Int
  newDueDate : Int
  renewedBy : Nat
deriving Repr, DecidableEq

structure Borrow where
  id : Nat
  user : Nat
  book : Nat
  borrowDate : Int
  dueDate : Int
  returnDate : Option Int
  status : BorrowStatus
  fineAmount : Int
  finePaid : Bool
  renewals : Nat
  renewalHistory : List RenewalEntry
  borrowedBy : Nat
  returnedBy : Option Nat
  notes : String
  isActive : Bool
deriving Repr, DecidableEq

/-- Virtual `canRenew`: borrowed, under the renewal cap, and not yet due. -/
def Borrow.canRenew (b : Borrow) (now : Int) : Bool :=
  b.status == .borrowed && decide (b.renewals < MAX_RENEWALS)
    && decide (now < b.dueDate)

/-- Instance method `calculateFine`. -/
def Borrow.calculateFine (b : Borrow) (now : Int) : Int :=
  if b.status == .returned || b.finePaid then 0
  else if now ≤ b.dueDate then 0
  else intMin (daysOverdueAt now b.dueDate * FINE_PER_DAY) MAX_FINE_AMOUNT

/-- Instance method `renewBook`; throws when `canRenew` fails. -/
def Borrow.renewBook (b : Borrow) (now : Int) (renewedBy : Nat) :
    Except String Borrow :=
  if b.canRenew now then
    let newDueDate := b.dueDate + RENEWAL_DURATION_DAYS * dayMs
    .ok { b with dueDate := newDueDate,
                 renewals := b.renewals + 1,
                 renewalHistory := b.renewalHistory
                   ++ [{ renewalDate := now, newDueDate := newDueDate,
                         renewedBy := renewedBy }] }
  else .error "Book cannot be renewed"

/-- Instance method `returnBook`.  The source assigns `status = 'returned'`
first and only afterwards tests `this.status === 'overdue'` before
recomputing the fine; the embedding keeps that order. -/
def Borrow.returnBook (b : Borrow) (now : Int) (returnedBy : Nat)
    (notes : String) : Except String Borrow :=
  if b.status == .returned then .error "Book is already returned"
  else
    let b1 := { b with returnDate := some now, status := .returned,
                       returnedBy := some returnedBy, notes := notes }
    if b1.status == .overdue then
      .ok { b1 with fineAmount := b1.calculateFine now }
    else .ok b1

/-- Borrow pre-save middleware: flip a past-due `borrowed` loan to
`overdue` and store the capped fine. -/
def Borrow.applySave (b : Borrow) (now : Int) : Borrow :=
  if b.status == .borrowed && b.returnDate == none && decide (b.dueDate < now)
  then
    { b with status := .overdue,
             fineAmount := intMin (daysOverdueAt now b.dueDate * FINE_PER_DAY)
               MAX_FINE_AMOUNT }
  else b

/-- A freshly created borrow document: the creation pre-save middleware
fills `dueDate = borrowDate + BORROW_DURATION_DAYS`. -/
def mkBorrow (id user book : Nat) (now : Int) : Borrow :=
  { id := id, user := user, book := book, borrowDate := now,
    dueDate := now + BORROW_DURATION_DAYS * dayMs,
    returnDate := none, status := .borrowed, fineAmount := 0,
    finePaid := false, renewals := 0, renewalHistory := [],
    borrowedBy := user, returnedBy := none, notes := "", isActive := true }

/-! ## Reservation model (Reservation.js) -/

inductive ReservationStatus where
  | active
  | fulfilled
  | expired
  | cancelled
deriving Repr, DecidableEq

structure Reservation where
  id : Nat
  user : Nat
  book : Nat
  reservationDate : Int
  expiryDate : Int
  status : ReservationStatus
  priority : Int
  fulfilledAt : Option Int
  fulfilledBy : Option Nat
  isActive : Bool
deriving Repr, DecidableEq

/-- Virtual `isExpired`: active and past the expiry date. -/
def Reservation.isExpired (r : Reservation) (now : Int) : Bool :=
  r.status == .active && decide (r.expiryDate < now)

/-- Reservation pre-save middleware: flip a stale active reservation to
`expired`. -/
def Reservation.applySave (r : Reservation) (now : Int) : Reservation :=
  if r.status == .active && r.isExpired now then { r with status := .expired }
  else r

/-- Instance method `fulfillReservation`; the queue processor calls it with
no argument, so `fulfilledBy` may be absent. -/
def Reservation.fulfillReservation (r : Reservation) (now : Int)
    (fulfilledBy : Option Nat) : Except String Reservation :=
  if r.status == .active then
    .ok { r with status := .fulfilled, fulfilledAt := some now,
                 fulfilledBy := fulfilledBy }
  else .error "Only active reservations can be fulfilled"

/-- Instance method `cancelReservation`. -/
def Reservation.cancelReservation (r : Reservation) :
    Except String Reservation :=
  if r.status == .active then .ok { r with status := .cancelled }
  else .error "Only active reservations can be cancelled"

/-! ## Notification model (only the fields the queue processor writes) -/

structure Notification where
  user : Nat
  kind : String
deriving Repr, DecidableEq

/-! ## The document store -/

structure DB where
  books : List Book
  borrows : List Borrow
  reservations : List Reservation
  nots : List Notification
  nextBorrowId : Nat
  nextReservationId : Nat
deriving Repr, DecidableEq

def findBook (db : DB) (bookId : Nat) : Option Book :=
  db.books.find? (fun b => b.id == bookId)

def saveBook (db : DB) (bk : Book) : DB :=
  { db with books := db.books.map (fun x => if x.id == bk.id then bk else x) }

def findBorrow (db : DB) (id : Nat) : Option Borrow :=
  db.borrows.find? (fun b => b.id == id)

def saveBorrow (db : DB) (b : Borrow) : DB :=
  { db with borrows := db.borrows.map (fun x => if x.id == b.id then b else x) }

def findReservation (db : DB) (id : Nat) : Option Reservation :=
  db.reservations.find? (fun r => r.id == id)

def saveReservation (db : DB) (r : Reservation) : DB :=
  { db with reservations :=
      db.reservations.map (fun x => if x.id == r.id then r else x) }

/-- The filter of the unique compound index on borrows: two documents
clash when both are `isActive` with `status: 'borrowed'` and share the
`(user, book, status)` key. -/
def borrowKeyClash (l b : Borrow) : Bool :=
  l.user == b.user && l.book == b.book
    && l.status == .borrowed && b.status == .borrowed
    && l.isActive && b.isActive

/-- `Borrow.create`: insert a document unless the unique partial index
rejects it. -/
def insertBorrow (db : DB) (b : Borrow) : Except String DB :=
  if db.borrows.any (fun l => borrowKeyClash l b) then
    .error "E11000 duplicate key error"
  else
    .ok { db with borrows := db.borrows ++ [b],
                  nextBorrowId := db.nextBorrowId + 1 }

/-! ## Roles (middleware/auth) -/

inductive Role where
  | admin
  | librarian
  | member
deriving Repr, DecidableEq

def Role.isStaff : Role → Bool
  | .admin => true
  | .librarian => true
  | .member => false

/-! ## Borrow controller (unnamed/part_002) -/

/-- Existing-loan check of the borrow handler: `findOne({user, book,
status: 'borrowed', isActive: true})` is non-empty. -/
def hasActiveBorrowed (db : DB) (userId bookId : Nat) : Bool :=
  db.borrows.any (fun l =>
    l.user == userId && l.book == bookId && l.status == .borrowed
      && l.isActive)

/-- `countDocuments({user, status: 'borrowed', isActive: true})`. -/
def countBorrowedBy (db : DB) (userId : Nat) : Nat :=
  (db.borrows.filter (fun l =>
    l.user == userId && l.status == .borrowed && l.isActive)).length

inductive BorrowOutcome where
  | created (borrowId : Nat)
  | bookNotFound
  | notAvailable
  | alreadyBorrowed
  | limitReached
  | serverError
deriving Repr, DecidableEq

def BorrowOutcome.isSuccess : BorrowOutcome → Bool
  | .created _ => true
  | _ => false

/-- Steps of the borrow handler after the `Book.findById` fetch; they
validate and commit against the fetched `book` snapshot.  The result of
`book.borrowCopy()` is discarded, exactly as in the handler. -/
def borrowCommit (db : DB) (now : Int) (userId : Nat) (book : Book) :
    BorrowOutcome × DB :=
  if !book.isBookAvailable then (.notAvailable, db)
  else if hasActiveBorrowed db userId book.id then (.alreadyBorrowed, db)
  else if 5 ≤ countBorrowedBy db userId then (.limitReached, db)
  else
    let loan := (mkBorrow db.nextBorrowId userId book.id now).applySave now
    match insertBorrow db loan with
    | .error _ => (.serverError, db)
    | .ok db1 => (.created loan.id, saveBook db1 (book.borrowCopy).1.applySave)

/-- `POST /api/borrows`: fetch the book, then validate and commit. -/
def borrowBook (db : DB) (now : Int) (userId bookId : Nat) :
    BorrowOutcome × DB :=
  match findBook db bookId with
  | none => (.bookNotFound, db)
  | some book => borrowCommit db now userId book

inductive ReturnOutcome where
  | returned
  | notFound
  | forbidden
  | alreadyReturned
  | serverError
deriving Repr, DecidableEq

/-- `POST /api/borrows/:id/return`.  Finalizes the loan, saves it, then
increments the book's availability.  The handler ends there: it does not
invoke `Reservation.processReservationQueue`. -/
def returnBookRoute (db : DB) (now : Int) (userId : Nat) (role : Role)
    (borrowId : Nat) (notes : String) : ReturnOutcome × DB :=
  match findBorrow db borrowId with
  | none => (.notFound, db)
  | some borrow =>
    if !(role.isStaff || borrow.user == userId) then (.forbidden, db)
    else if borrow.status == .returned then (.alreadyReturned, db)
    else
      match borrow.returnBook now userId notes with
      | .error _ => (.serverError, db)
      | .ok b1 =>
        let db1 := saveBorrow db (b1.applySave now)
        match findBook db1 borrow.book with
        | none => (.returned, db1)
        | some bk => (.returned, saveBook db1 (bk.returnCopy).1.applySave)

inductive RenewOutcome where
  | renewed
  | notFound
  | forbidden
  | cannotRenew
  | serverError
deriving Repr, DecidableEq

/-- `POST /api/borrows/:id/renew`. -/
def renewBookRoute (db : DB) (now : Int) (userId : Nat) (role : Role)
    (borrowId : Nat) : RenewOutcome × DB :=
  match findBorrow db borrowId with
  | none => (.notFound, db)
  | some borrow =>
    if !(role.isStaff || borrow.user == userId) then (.forbidden, db)
    else if !(borrow.canRenew now) then (.cannotRenew, db)
    else
      match borrow.renewBook now userId with
      | .error _ => (.serverError, db)
      | .ok b1 => (.renewed, saveBorrow db (b1.applySave now))

/-! ## Reservation statics and routes -/

/-- The active reservations of a book (`{book, status: 'active',
isActive: true}`). -/
def activeResFor (db : DB) (bookId : Nat) : List Reservation :=
  db.reservations.filter (fun r =>
    r.book == bookId && r.status == .active && r.isActive)

/-- Priority of the head of `findOne(...).sort({priority: -1})`, with the
`|| 0` fallback for an empty queue. -/
def lastActivePriority (db : DB) (bookId : Nat) : Int :=
  match (activeResFor db bookId).map (fun r => r.priority) with
  | [] => 0
  | p :: ps => ps.foldl intMax p

/-- Active-reservation duplicate check of `createReservation`. -/
def hasActiveReservation (db : DB) (userId bookId : Nat) : Bool :=
  db.reservations.any (fun r =>
    r.user == userId && r.book == bookId && r.status == .active && r.isActive)

inductive ReserveOutcome where
  | created (resId : Nat)
  | failed (msg : String)
deriving Repr, DecidableEq

/-- Static `Reservation.createReservation(userId, bookId)`. -/
def createReservation (db : DB) (now : Int) (userId bookId : Nat) :
    ReserveOutcome × DB :=
  match findBook db bookId with
  | none => (.failed "Book not found", db)
  | some book =>
    if book.isBookAvailable then
      (.failed "Book is available for immediate borrowing", db)
    else if hasActiveReservation db userId bookId then
      (.failed "User already has an active reservation for this book", db)
    else
      let res : Reservation :=
        { id := db.nextReservationId, user := userId, book := bookId,
          reservationDate := now, expiryDate := now + 3 * dayMs,
          status := .active, priority := lastActivePriority db bookId + 1,
          fulfilledAt := none, fulfilledBy := none, isActive := true }
      let res := res.applySave now
      let db1 := { db with reservations := db.reservations ++ [res],
                           nextReservationId := db.nextReservationId + 1 }
      (.created res.id, saveBook db1 book.reserveCopy.applySave)

/-- `updateMany({book, status: 'active', isActive: true,
priority: {$gt: p}}, {$inc: {priority: -1}})`. -/
def renumberAfterRemoval (db : DB) (bookId : Nat) (p : Int) : DB :=
  { db with reservations := db.reservations.map (fun r =>
      if r.book == bookId && r.status == .active && r.isActive
          && decide (p < r.priority) then
        { r with priority := r.priority - 1 }
      else r) }

inductive CancelOutcome where
  | cancelled
  | notFound
  | forbidden
  | notActive
deriving Repr, DecidableEq

/-- `DELETE /api/reservations/:id`. -/
def cancelReservationRoute (db : DB) (now : Int) (userId : Nat) (role : Role)
    (resId : Nat) : CancelOutcome × DB :=
  match findReservation db resId with
  | none => (.notFound, db)
  | some r =>
    if !(role.isStaff || r.user == userId) then (.forbidden, db)
    else if !(r.status == .active) then (.notActive, db)
    else
      match r.cancelReservation with
      | .error _ => (.notActive, db)
      | .ok r1 =>
        let db1 := saveReservation db (r1.applySave now)
        let db2 :=
          match findBook db1 r.book with
          | none => db1
          | some bk => saveBook db1 bk.cancelReservation.applySave
        (.cancelled, renumberAfterRemoval db2 r.book r.priority)

/-- Lexicographic key of `.sort({priority: 1, reservationDate: 1})`. -/
def queueLt (a b : Reservation) : Bool :=
  decide (a.priority < b.priority)
    || (a.priority == b.priority && decide (a.reservationDate < b.reservationDate))

/-- The document `findOne` returns under that sort: a minimal element of
the filtered list (first such element on ties). -/
def minQueue : List Reservation → Option Reservation
  | [] => none
  | r :: rs => some (rs.foldl (fun best x => if queueLt x best then x else best) r)

inductive FulfillOutcome where
  | fulfilled (resId borrowId : Nat)
  | noBook
  | bookUnavailable
  | noReservation
  | createFailed
deriving Repr, DecidableEq

/-- Static `Reservation.processReservationQueue(bookId)`.  Note the order
of effects: the reservation is saved as fulfilled before the new loan is
created, the book decremented, the notification recorded, and the
remaining priorities renumbered. -/
def processReservationQueue (db : DB) (now : Int) (bookId : Nat) :
    FulfillOutcome × DB :=
  match findBook db bookId with
  | none => (.noBook, db)
  | some book =>
    if !book.isBookAvailable then (.bookUnavailable, db)
    else
      match minQueue (activeResFor db bookId) with
      | none => (.noReservation, db)
      | some next =>
        match next.fulfillReservation now none with
        | .error _ => (.createFailed, db)
        | .ok next1 =>
          let db1 := saveReservation db (next1.applySave now)
          let loan := (mkBorrow db1.nextBorrowId next.user bookId now).applySave now
          match insertBorrow db1 loan with
          | .error _ => (.createFailed, db1)
          | .ok db2 =>
            let db3 := saveBook db2 (book.borrowCopy).1.applySave
            let db4 := { db3 with nots := db3.nots
              ++ [{ user := next.user, kind := "reservation_available" }] }
            (.fulfilled next.id loan.id,
              renumberAfterRemoval db4 bookId next.priority)

/-- One iteration of the `cleanupExpiredReservations` loop.  `snap` is the
document as fetched before the sweep began: the save writes only the
status, and the renumbering filter uses the snapshot's `priority`. -/
def cleanupStep (db : DB) (snap : Reservation) : DB :=
  let db1 := { db with reservations := db.reservations.map (fun r =>
      if r.id == snap.id then { r with status := .expired } else r) }
  let db2 :=
    match findBook db1 snap.book with
    | none => db1
    | some bk => saveBook db1 bk.cancelReservation.applySave
  renumberAfterRemoval db2 snap.book snap.priority

/-- Static `Reservation.cleanupExpiredReservations()`: fetch every stale
active reservation once, then sweep them in fetch order. -/
def cleanupExpiredReservations (db : DB) (now : Int) : Nat × DB :=
  let expired := db.reservations.filter (fun r =>
    r.status == .active && decide (r.expiryDate < now) && r.isActive)
  (expired.length, expired.foldl cleanupStep db)

/-! ## Operation alphabet for whole-system invariants -/

inductive Op where
  | borrowOp (now : Int) (userId bookId : Nat)
  | returnOp (now : Int) (userId : Nat) (role : Role) (borrowId : Nat)
      (notes : String)
  | renewOp (now : Int) (userId : Nat) (role : Role) (borrowId : Nat)
  | reserveOp (now : Int) (userId bookId : Nat)
  | cancelOp (now : Int) (userId : Nat) (role : Role) (resId : Nat)
  | fulfillOp (now : Int) (bookId : Nat)
  | expireOp (now : Int)

def applyOp (db : DB) : Op → DB
  | .borrowOp now u b => (borrowBook db now u b).2
  | .returnOp now u role id notes => (returnBookRoute db now u role id notes).2
  | .renewOp now u role id => (renewBookRoute db now u role id).2
  | .reserveOp now u b => (createReservation db now u b).2
  | .cancelOp now u role id => (cancelReservationRoute db now u role id).2
  | .fulfillOp now b => (processReservationQueue db now b).2
  | .expireOp now => (cleanupExpiredReservations db now).2

def applyOps (db : DB) (ops : List Op) : DB := ops.foldl applyOp db

/-! ## Invariant predicates -/

/-- A book whose counter is in range: `0 ≤ availableCopies ≤ totalCopies`. -/
def BookOk (b : Book) : Prop :=
  0 ≤ b.availableCopies ∧ b.availableCopies ≤ b.totalCopies

/-- Inventory invariant: every book keeps `0 ≤ availableCopies ≤
totalCopies`. -/
def availOk (db : DB) : Prop := ∀ b ∈ db.books, BookOk b

/-- Relation between two distinct loan documents: distinct ids, and never
two `borrowed` loans for the same `(user, book)` pair. -/
def LoanRel (a b : Borrow) : Prop :=
  a.id ≠ b.id ∧
    ¬(a.user = b.user ∧ a.book = b.book ∧ a.status = .borrowed
        ∧ b.status = .borrowed)

/-- Per-document part of the loan invariant: loans written by the modelled
operations are `isActive`, never stored with status `overdue`, and carry
an id below the allocator. -/
def loanOk (db : DB) (l : Borrow) : Prop :=
  l.isActive = true ∧ l.status ≠ .overdue ∧ l.id < db.nextBorrowId

/-- Loan-collection invariant maintained by every modelled operation. -/
def loanInv (db : DB) : Prop :=
  (∀ l ∈ db.borrows, loanOk db l) ∧ List.Pairwise LoanRel db.borrows

/-- The claim-level uniqueness property: at most one loan per
`(user, book)` pair whose status is `borrowed` or `overdue`. -/
def atMostOneActivePer (db : DB) : Prop :=
  List.Pairwise (fun a b : Borrow =>
    ¬(a.user = b.user ∧ a.book = b.book
        ∧ (a.status = .borrowed ∨ a.status = .overdue)
        ∧ (b.status = .borrowed ∨ b.status = .overdue))) db.borrows

/-! ## Concrete fixtures used by the scenario theorems -/

/-- Scenario E book: one copy, none available, active. -/
def bookE : Book :=
  { id := 0, totalCopies := 1, availableCopies := 0, isActive := true,
    statistics := ⟨1, 1⟩ }

/-- Scenario E loan held by user 1 on book 0. -/
def loanE : Borrow := mkBorrow 10 1 0 0

/-- Scenario E reservation: user 2 waits on book 0 with priority 1. -/
def resE : Reservation :=
  { id := 20, user := 2, book := 0, reservationDate := 0,
    expiryDate := 10 * dayMs, status := .active, priority := 1,
    fulfilledAt := none, fulfilledBy := none, isActive := true }

def dbE : DB :=
  { books := [bookE], borrows := [loanE], reservations := [resE],
    nots := [], nextBorrowId := 11, nextReservationId := 21 }

/-- Scenario C loan: due after 14 days, stored as `overdue`. -/
def loanC4 : Borrow := { mkBorrow 1 1 0 0 with status := .overdue }

/-- Reservations for the expiry-sweep scenario: priorities 1, 2, 3 on book
0; the first two are past their expiry date, the third is not. -/
def resS1 : Reservation :=
  { id := 1, user := 1, book := 0, reservationDate := 0, expiryDate := dayMs,
    status := .active, priority := 1, fulfilledAt := none,
    fulfilledBy := none, isActive := true }

def resS2 : Reservation := { resS1 with id := 2, user := 2, priority := 2 }

def resS3 : Reservation :=
  { resS1 with id := 3, user := 3, priority := 3, expiryDate := 100 * dayMs }

def dbSweep : DB :=
  { books := [bookE], borrows := [], reservations := [resS1, resS2, resS3],
    nots := [], nextBorrowId := 0, nextReservationId := 4 }

/-- A book whose single copy is available. -/
def bookOne : Book :=
  { id := 0, totalCopies := 1, availableCopies := 1, isActive := true,
    statistics := ⟨0, 0⟩ }

def dbOne : DB :=
  { books := [bookOne], borrows := [], reservations := [], nots := [],
    nextBorrowId := 100, nextReservationId := 0 }

/-- An expired-but-unswept reservation of user 3 on the available book. -/
def resPast : Reservation :=
  { id := 5, user := 3, book := 0, reservationDate := 0, expiryDate := dayMs,
    status := .active, priority := 1, fulfilledAt := none,
    fulfilledBy := none, isActive := true }

def dbQueue : DB :=
  { books := [bookOne], borrows := [], reservations := [resPast],
    nots := [], nextBorrowId := 30, nextReservationId := 6 }

/-- A two-copy book with one copy out to user 1. -/
def bookW : Book :=
  { id := 0, totalCopies := 2, availableCopies := 1, isActive := true,
    statistics := ⟨1, 0⟩ }

def loanW : Borrow := mkBorrow 50 1 0 0

def dbW : DB :=
  { books := [bookW], borrows := [loanW], reservations := [], nots := [],
    nextBorrowId := 51, nextReservationId := 0 }

/-- A freshly borrowed loan of user 4, renewable at time 0. -/
def loanR : Borrow := mkBorrow 40 4 0 0

def dbR : DB :=
  { books := [], borrows := [loanR], reservations := [], nots := [],
    nextBorrowId := 41, nextReservationId := 0 }

/-! ## Scenario theorems -/

/-- C1.  A successful return on a book with an active reservation does not
trigger queue fulfillment: the handler of `POST /api/borrows/:id/return`
increments availability and stops.  `processReservationQueue` has no
caller in the repository, so in Scenario E the reservation stays
`active`, no loan is created for the waiting user, and no notification is
emitted. -/
theorem returnRoute_no_queue_fulfillment :
    (returnBookRoute dbE dayMs 1 .member 10 "").1 = .returned ∧
    ((returnBookRoute dbE dayMs 1 .member 10 "").2.books.map
      (fun b => b.availableCopies)) = [1] ∧
    ((returnBookRoute dbE dayMs 1 .member 10 "").2.reservations.map
      (fun r => (r.id, r.status))) = [(20, .active)] ∧
    ((returnBookRoute dbE dayMs 1 .member 10 "").2.borrows.map
      (fun l => l.id)) = [10] ∧
    (returnBookRoute dbE dayMs 1 .member 10 "").2.nots = [] := by
  decide

/-- C3.  Sweeping two stale reservations of the same book in one
`cleanupExpiredReservations` pass renumbers with the priorities fetched
before the sweep: after expiring priorities 1 and 2 of `{1, 2, 3}`, the
single remaining active reservation holds priority 2, not 1. -/
theorem cleanup_priority_gap :
    ((activeResFor (cleanupExpiredReservations dbSweep (10 * dayMs)).2 0).map
      (fun r => r.priority)) = [2] ∧
    (activeResFor (cleanupExpiredReservations dbSweep (10 * dayMs)).2 0).length
      = 1 := by
  decide

/-- C4.  `returnBook` assigns `status = 'returned'` before testing
`status === 'overdue'`, so the final-fine branch never runs: returning
the Scenario C loan six days late (the fine formula yields 6.00) leaves
`fineAmount` at 0. -/
theorem return_fine_dead_branch :
    (loanC4.returnBook (20 * dayMs) 5 "").toOption.map
      (fun r => (r.status, r.fineAmount)) = some (.returned, 0) ∧
    intMin (daysOverdueAt (20 * dayMs) loanC4.dueDate * FINE_PER_DAY)
      MAX_FINE_AMOUNT = 600 ∧
    loanC4.status = .overdue ∧ loanC4.dueDate < 20 * dayMs := by
  decide

/-- C9 counterexample.  Both borrow handlers pass `Book.findById` before
either saves (every awaited database call is a suspension point), so each
validates and commits against its own snapshot of the one-copy book: both
requests succeed, two `borrowed` loans exist against the single copy, and
the handler ignores the `false` returned by the second `borrowCopy()`. -/
theorem concurrent_borrow_two_loans :
    findBook dbOne 0 = some bookOne ∧
    bookOne.availableCopies = 1 ∧ bookOne.totalCopies = 1 ∧
    (borrowCommit dbOne 0 1 bookOne).1 = .created 100 ∧
    (borrowCommit (borrowCommit dbOne 0 1 bookOne).2 0 2 bookOne).1
      = .created 101 ∧
    ((borrowCommit (borrowCommit dbOne 0 1 bookOne).2 0 2 bookOne).2.borrows.map
      (fun l => (l.user, l.book, l.status)))
      = [(1, 0, .borrowed), (2, 0, .borrowed)] := by
  decide

/-- C10.  `processReservationQueue` never consults `expiryDate`: with an
available copy and a single active reservation already past expiry, the
queue still fulfills it and creates a `borrowed` loan for its user. -/
theorem queue_fulfills_expired_reservation :
    resPast.expiryDate < 10 * dayMs ∧
    (processReservationQueue dbQueue (10 * dayMs) 0).1 = .fulfilled 5 30 ∧
    ((processReservationQueue dbQueue (10 * dayMs) 0).2.reservations.map
      (fun r => (r.id, r.status, r.fulfilledAt)))
      = [(5, .fulfilled, some (10 * dayMs))] ∧
    ((processReservationQueue dbQueue (10 * dayMs) 0).2.borrows.map
      (fun l => (l.user, l.book, l.status))) = [(3, 0, .borrowed)] := by
  decide

/-! ## Inventory ledger round trip -/

/-- C8.  With at least one copy available and the counter within bounds,
`borrowCopy` followed by `returnCopy` restores `availableCopies`. -/
theorem borrow_return_roundtrip (bk : Book)
    (h1 : 1 ≤ bk.availableCopies) (h2 : bk.availableCopies ≤ bk.totalCopies) :
    ((bk.borrowCopy).1.returnCopy).1.availableCopies = bk.availableCopies := by
  unfold Book.borrowCopy Book.returnCopy
  rw [if_pos (show 0 < bk.availableCopies by omega)]
  try dsimp only
  rw [if_pos (show bk.availableCopies - 1 < bk.totalCopies by omega)]
  try dsimp only
  omega

/-- C8 witness: the round trip on a concrete two-copy book. -/
theorem borrow_return_roundtrip_witness :
    ((({ id := 0, totalCopies := 2, availableCopies := 1, isActive := true,
         statistics := ⟨0, 0⟩ : Book }).borrowCopy).1.returnCopy).1.availableCopies
      = 1 :=
  borrow_return_roundtrip
    { id := 0, totalCopies := 2, availableCopies := 1, isActive := true,
      statistics := ⟨0, 0⟩ } (by decide) (by decide)

/-! ## Renewal policy -/

/-- C6.  Renewal succeeds exactly when `canRenew` holds — status
`borrowed`, fewer than `MAX_RENEWALS` renewals, and not yet due.  On
success the due date is extended by `RENEWAL_DURATION_DAYS`, the counter
is incremented, and one history entry is appended; on failure the store
is unchanged. -/
theorem renew_route_spec (db : DB) (now : Int) (userId : Nat) (role : Role)
    (borrowId : Nat) (b : Borrow)
    (hfind : findBorrow db borrowId = some b)
    (hauth : (role.isStaff || b.user == userId) = true) :
    (b.canRenew now
      = (b.status == .borrowed && decide (b.renewals < MAX_RENEWALS)
          && decide (now < b.dueDate))) ∧
    (b.canRenew now = false →
      renewBookRoute db now userId role borrowId = (.cannotRenew, db)) ∧
    (b.canRenew now = true →
      renewBookRoute db now userId role borrowId =
        (.renewed, saveBorrow db { b with
          dueDate := b.dueDate + RENEWAL_DURATION_DAYS * dayMs,
          renewals := b.renewals + 1,
          renewalHistory := b.renewalHistory
            ++ [{ renewalDate := now,
                  newDueDate := b.dueDate + RENEWAL_DURATION_DAYS * dayMs,
                  renewedBy := userId }] })) := by
  refine ⟨rfl, ?_, ?_⟩
  · intro h
    simp [renewBookRoute, hfind, hauth, h]
  · intro h
    have hdue : now < b.dueDate := by
      simp only [Borrow.canRenew, Bool.and_eq_true, decide_eq_true_eq] at h
      exact h.2
    have hno : ¬ (b.dueDate + RENEWAL_DURATION_DAYS * dayMs < now) := by
      simp only [RENEWAL_DURATION_DAYS, dayMs]
      omega
    simp [renewBookRoute, hfind, hauth, h, Borrow.renewBook, Borrow.applySave,
      hno]

/-- C6 witness: renewing a fresh loan at time 0 extends the due date and
logs one history entry. -/
theorem renew_route_spec_witness :
    renewBookRoute dbR 0 4 .member 40 =
      (.renewed, saveBorrow dbR { loanR with
        dueDate := loanR.dueDate + RENEWAL_DURATION_DAYS * dayMs,
        renewals := loanR.renewals + 1,
        renewalHistory := loanR.renewalHistory
          ++ [{ renewalDate := 0,
                newDueDate := loanR.dueDate + RENEWAL_DURATION_DAYS * dayMs,
                renewedBy := 4 }] }) :=
  (renew_route_spec dbR 0 4 .member 40 loanR (by decide) (by decide)).2.2
    (by decide)

/-! ## Reservation priority assignment -/

theorem le_intMax_left (a b : Int) : a ≤ intMax a b := by
  unfold intMax; split <;> omega

theorem le_intMax_right (a b : Int) : b ≤ intMax a b := by
  unfold intMax; split <;> omega

theorem intMax_eq_or (a b : Int) : intMax a b = a ∨ intMax a b = b := by
  unfold intMax; split <;> simp

theorem le_foldl_intMax (l : List Int) (a : Int) : a ≤ l.foldl intMax a := by
  induction l generalizing a with
  | nil => simp
  | cons x xs ih => exact le_trans (le_intMax_left a x) (ih (intMax a x))

theorem mem_le_foldl_intMax (l : List Int) (a : Int) {x : Int} (hx : x ∈ l) :
    x ≤ l.foldl intMax a := by
  induction l generalizing a with
  | nil => cases hx
  | cons y ys ih =>
    rw [List.foldl_cons]
    rcases List.mem_cons.mp hx with h | h
    · subst h
      exact le_trans (le_intMax_right a x) (le_foldl_intMax ys (intMax a x))
    · exact ih (intMax a y) h

theorem foldl_intMax_mem (l : List Int) (a : Int) :
    l.foldl intMax a = a ∨ l.foldl intMax a ∈ l := by
  induction l generalizing a with
  | nil => simp
  | cons x xs ih =>
    rw [List.foldl_cons]
    rcases ih (intMax a x) with h | h
    · rcases intMax_eq_or a x with h' | h'
      · exact Or.inl (by rw [h, h'])
      · exact Or.inr (by rw [h, h']; exact List.mem_cons_self x xs)
    · exact Or.inr (List.mem_cons_of_mem x h)

/-- `lastActivePriority` is the maximum priority among the book's active
reservations, and 0 when there are none. -/
theorem lastActivePriority_spec (db : DB) (bid : Nat) :
    (∀ r ∈ activeResFor db bid, r.priority ≤ lastActivePriority db bid) ∧
    (activeResFor db bid = [] → lastActivePriority db bid = 0) ∧
    (activeResFor db bid ≠ [] →
      ∃ r ∈ activeResFor db bid, r.priority = lastActivePriority db bid) := by
  cases hl : activeResFor db bid with
  | nil => simp [lastActivePriority, hl]
  | cons r rs =>
    refine ⟨?_, by simp, fun _ => ?_⟩
    · intro x hx
      rcases List.mem_cons.mp hx with h | h
      · subst h
        simpa [lastActivePriority, hl] using
          le_foldl_intMax (rs.map (fun r => r.priority)) x.priority
      · simpa [lastActivePriority, hl] using
          mem_le_foldl_intMax (rs.map (fun r => r.priority)) r.priority
            (List.mem_map_of_mem (fun r => r.priority) h)
    · have hmem := foldl_intMax_mem (rs.map (fun r => r.priority)) r.priority
      rcases hmem with h | h
      · exact ⟨r, List.mem_cons_self r rs, by simp [lastActivePriority, hl, h]⟩
      · rcases List.mem_map.mp h with ⟨x, hx, hx'⟩
        exact ⟨x, List.mem_cons_of_mem r hx,
          by simp [lastActivePriority, hl, hx']⟩

/-- C7.  Reserving an available book fails with the exact message "Book is
available for immediate borrowing"; a second active reservation by the
same user fails; otherwise a reservation is created whose priority is the
maximum active priority plus one (one when the queue is empty). -/
theorem reserve_spec (db : DB) (now : Int) (u bid : Nat) (bk : Book)
    (hfind : findBook db bid = some bk) :
    (bk.isBookAvailable = true →
      createReservation db now u bid
        = (.failed "Book is available for immediate borrowing", db)) ∧
    (bk.isBookAvailable = false → hasActiveReservation db u bid = true →
      createReservation db now u bid
        = (.failed "User already has an active reservation for this book",
            db)) ∧
    (bk.isBookAvailable = false → hasActiveReservation db u bid = false →
      (createReservation db now u bid).1 = .created db.nextReservationId ∧
      ({ id := db.nextReservationId, user := u, book := bid,
         reservationDate := now, expiryDate := now + 3 * dayMs,
         status := .active, priority := lastActivePriority db bid + 1,
         fulfilledAt := none, fulfilledBy := none, isActive := true
         : Reservation } ∈ (createReservation db now u bid).2.reservations) ∧
      (∀ r ∈ activeResFor db bid, r.priority ≤ lastActivePriority db bid) ∧
      (activeResFor db bid = [] → lastActivePriority db bid = 0)) := by
  refine ⟨?_, ?_, ?_⟩
  · intro h
    simp [createReservation, hfind, h]
  · intro h h2
    simp [createReservation, hfind, h, h2]
  · intro h h2
    have hexp : ¬ (now + 3 * dayMs < now) := by
      simp only [dayMs]; omega
    refine ⟨?_, ?_, (lastActivePriority_spec db bid).1,
      (lastActivePriority_spec db bid).2.1⟩
    · simp [createReservation, hfind, h, h2, Reservation.applySave,
        Reservation.isExpired, hexp]
    · simp [createReservation, hfind, h, h2, Reservation.applySave,
        Reservation.isExpired, hexp, saveBook]

/-- C7 witness: reserving the unavailable Scenario E book appends a
priority-2 reservation behind the existing priority-1 one. -/
theorem reserve_spec_witness :
    (createReservation dbE 0 7 0).1 = .created 21 ∧
    ({ id := 21, user := 7, book := 0, reservationDate := 0,
       expiryDate := 3 * dayMs, status := .active, priority := 2,
       fulfilledAt := none, fulfilledBy := none, isActive := true
       : Reservation } ∈ (createReservation dbE 0 7 0).2.reservations) := by
  have h := (reserve_spec dbE 0 7 0 bookE (by decide)).2.2 (by decide)
    (by decide)
  exact ⟨h.1, h.2.1⟩

/-! ## Serialized borrowing of the last copy -/

theorem mkBorrow_applySave (id u b : Nat) (now : Int) :
    (mkBorrow id u b now).applySave now = mkBorrow id u b now := by
  unfold Borrow.applySave
  rw [if_neg]
  simp only [mkBorrow, Bool.and_eq_true, beq_iff_eq, decide_eq_true_eq,
    not_and, BORROW_DURATION_DAYS, dayMs]
  intro _ _
  omega

theorem find?_map_replace (bid : Nat) (bk b : Book) (hid : b.id = bk.id) :
    ∀ l : List Book, l.find? (fun x => x.id == bid) = some bk →
    (l.map (fun x => if x.id == b.id then b else x)).find?
      (fun x => x.id == bid) = some b
  | [], h => by simp at h
  | y :: ys, h => by
    by_cases hy : (y.id == bid) = true
    · have hbky : bk = y := by
        rw [@List.find?_cons_of_pos Book (fun x => x.id == bid) y ys hy] at h
        cases h; rfl
      have hb : (y.id == b.id) = true := by
        rw [hid, hbky]; exact beq_self_eq_true y.id
      have hb2 : (b.id == bid) = true := by
        rw [hid, hbky]; exact hy
      simp only [List.map_cons, if_pos hb]
      exact @List.find?_cons_of_pos Book (fun x => x.id == bid) b _ hb2
    · rw [@List.find?_cons_of_neg Book (fun x => x.id == bid) y ys hy] at h
      have hbid : (bk.id == bid) = true := by
        simpa using List.find?_some h
      have hyb : ¬ (y.id == b.id) = true := by
        intro hc
        apply hy
        have h1 : y.id = b.id := by simpa using hc
        have h2 : bk.id = bid := by simpa using hbid
        rw [h1, hid, h2]
        exact beq_self_eq_true bid
      simp only [List.map_cons, if_neg hyb]
      rw [@List.find?_cons_of_neg Book (fun x => x.id == bid) y _ hy]
      exact find?_map_replace bid bk b hid ys h

theorem findBook_saveBook (db : DB) (bid : Nat) (bk b : Book)
    (hid : b.id = bk.id) (h : findBook db bid = some bk) :
    findBook (saveBook db b) bid = some b :=
  find?_map_replace bid bk b hid db.books h

/-- C9 amended.  When the two borrow requests are serialized — the second
starts after the first has saved — the first succeeds and the second
fails with Unavailable, whatever its user: the saved book has no copy
left. -/
theorem serialized_borrow_one_success (db : DB) (now : Int)
    (u1 bid : Nat) (bk : Book)
    (hfind : findBook db bid = some bk)
    (havail : bk.availableCopies = 1) (hact : bk.isActive = true)
    (htot : 1 ≤ bk.totalCopies)
    (hdup : hasActiveBorrowed db u1 bid = false)
    (hcap : countBorrowedBy db u1 < 5) :
    (borrowBook db now u1 bid).1 = .created db.nextBorrowId ∧
    (∀ u2 now2, (borrowBook (borrowBook db now u1 bid).2 now2 u2 bid).1
      = .notAvailable) := by
  have hbid : bk.id = bid := by
    have := List.find?_some (by simpa [findBook] using hfind)
    simpa using this
  have havailb : bk.isBookAvailable = true := by
    simp [Book.isBookAvailable, havail, hact]
  have hclash : (db.borrows.any (fun l =>
      borrowKeyClash l (mkBorrow db.nextBorrowId u1 bk.id now))) = false := by
    rw [List.any_eq_false]
    intro l hl
    have hptw := List.any_eq_false.mp hdup l hl
    revert hptw
    rw [hbid]
    simp only [borrowKeyClash, mkBorrow]
    cases l.user == u1 <;> cases l.book == bid <;>
      cases l.status == BorrowStatus.borrowed <;> cases l.isActive <;> simp
  have hrun : borrowBook db now u1 bid
      = (BorrowOutcome.created db.nextBorrowId,
         saveBook
           { db with
             borrows := db.borrows
               ++ [(mkBorrow db.nextBorrowId u1 bk.id now).applySave now],
             nextBorrowId := db.nextBorrowId + 1 }
           ((bk.borrowCopy).1.applySave)) := by
    simp only [borrowBook, hfind, borrowCommit, havailb, Bool.not_true,
      Bool.false_eq_true, if_false, hbid, hdup, mkBorrow_applySave]
    rw [if_neg (by omega), insertBorrow]
    rw [hbid] at hclash
    simp only [mkBorrow_applySave, hclash, Bool.false_eq_true, if_false]
    simp [mkBorrow]
  refine ⟨by rw [hrun], ?_⟩
  intro u2 now2
  have hdec : (bk.borrowCopy).1.applySave
      = { bk with availableCopies := 0, statistics := ⟨bk.statistics.totalBorrows + 1, bk.statistics.totalReservations⟩ } := by
    unfold Book.borrowCopy
    rw [if_pos (by omega)]
    dsimp only
    unfold Book.applySave
    rw [if_neg (by dsimp only; omega)]
    simp [havail]
  have hfind2 : findBook (borrowBook db now u1 bid).2 bid
      = some ((bk.borrowCopy).1.applySave) := by
    rw [hrun]
    exact findBook_saveBook _ bid bk _ (by rw [hdec]) hfind
  generalize hdb : (borrowBook db now u1 bid).2 = dbA at hfind2 ⊢
  simp [borrowBook, hfind2, borrowCommit, hdec, Book.isBookAvailable]

/-- C9 amended witness: serialized borrows of the one-copy book give one
success and one Unavailable failure. -/
theorem serialized_borrow_one_success_witness :
    (borrowBook dbOne 0 1 0).1 = .created 100 ∧
    (borrowBook (borrowBook dbOne 0 1 0).2 0 2 0).1 = .notAvailable := by
  have h := serialized_borrow_one_success dbOne 0 1 0 bookOne (by decide)
    (by decide) (by decide) (by decide) (by decide) (by decide)
  exact ⟨h.1, h.2 2 0⟩

/-! ## Inventory invariant over operation sequences -/

theorem availOk_of_books_eq {db db' : DB} (h : db'.books = db.books)
    (hok : availOk db) : availOk db' := by
  unfold availOk at *
  rw [h]
  exact hok

theorem BookOk_borrowCopy {b : Book} (h : BookOk b) :
    BookOk (b.borrowCopy).1 := by
  unfold BookOk Book.borrowCopy at *
  split <;> (try dsimp only) <;> omega

theorem BookOk_returnCopy {b : Book} (h : BookOk b) :
    BookOk (b.returnCopy).1 := by
  unfold BookOk Book.returnCopy at *
  split <;> (try dsimp only) <;> omega

theorem BookOk_reserveCopy {b : Book} (h : BookOk b) :
    BookOk b.reserveCopy := h

theorem BookOk_cancelReservation {b : Book} (h : BookOk b) :
    BookOk b.cancelReservation := by
  unfold Book.cancelReservation
  split
  · exact h
  · exact h

theorem BookOk_applySave {b : Book} (h : BookOk b) : BookOk b.applySave := by
  unfold BookOk Book.applySave at *
  split <;> (try dsimp only) <;> omega

theorem mem_of_findBook {db : DB} {bid : Nat} {bk : Book}
    (h : findBook db bid = some bk) : bk ∈ db.books :=
  List.mem_of_find?_eq_some h

theorem availOk_saveBook {db : DB} {bk : Book} (hok : availOk db)
    (hb : BookOk bk) : availOk (saveBook db bk) := by
  intro x hx
  unfold saveBook at hx
  rcases List.mem_map.mp hx with ⟨y, hy, rfl⟩
  by_cases h : (y.id == bk.id) = true
  · rw [if_pos h]
    exact hb
  · rw [if_neg h]
    exact hok y hy

theorem insertBorrow_ok {db : DB} {b : Borrow} {db' : DB}
    (h : insertBorrow db b = .ok db') :
    db'.books = db.books ∧ db'.borrows = db.borrows ++ [b]
      ∧ db'.nextBorrowId = db.nextBorrowId + 1
      ∧ db'.reservations = db.reservations := by
  unfold insertBorrow at h
  split at h
  · cases h
  · cases h
    exact ⟨rfl, rfl, rfl, rfl⟩

theorem availOk_borrowBook (db : DB) (now : Int) (u bid : Nat)
    (h : availOk db) : availOk (borrowBook db now u bid).2 := by
  unfold borrowBook borrowCommit
  try dsimp only
  split
  · exact h
  · next book hf =>
    split
    · exact h
    · split
      · exact h
      · split
        · exact h
        · split
          · exact h
          · next db1 hins =>
            exact availOk_saveBook
              (availOk_of_books_eq (insertBorrow_ok hins).1 h)
              (BookOk_applySave (BookOk_borrowCopy
                (h book (mem_of_findBook hf))))

theorem availOk_returnBookRoute (db : DB) (now : Int) (u : Nat) (role : Role)
    (bid : Nat) (notes : String) (h : availOk db) :
    availOk (returnBookRoute db now u role bid notes).2 := by
  unfold returnBookRoute
  try dsimp only
  split
  · exact h
  · split
    · exact h
    · split
      · exact h
      · split
        · exact h
        · next b1 hb1 =>
          split
          · exact h
          · next bk hfb =>
            exact availOk_saveBook h
              (BookOk_applySave (BookOk_returnCopy
                (h bk (mem_of_findBook hfb))))

theorem availOk_renewBookRoute (db : DB) (now : Int) (u : Nat) (role : Role)
    (bid : Nat) (h : availOk db) :
    availOk (renewBookRoute db now u role bid).2 := by
  unfold renewBookRoute
  try dsimp only
  split
  · exact h
  · split
    · exact h
    · split
      · exact h
      · split
        · exact h
        · exact h

theorem availOk_createReservation (db : DB) (now : Int) (u bid : Nat)
    (h : availOk db) : availOk (createReservation db now u bid).2 := by
  unfold createReservation
  try dsimp only
  split
  · exact h
  · next book hf =>
    split
    · exact h
    · split
      · exact h
      · exact availOk_saveBook h
          (BookOk_applySave (BookOk_reserveCopy (h book (mem_of_findBook hf))))

theorem availOk_cancelReservationRoute (db : DB) (now : Int) (u : Nat)
    (role : Role) (rid : Nat) (h : availOk db) :
    availOk (cancelReservationRoute db now u role rid).2 := by
  unfold cancelReservationRoute
  try dsimp only
  split
  · exact h
  · split
    · exact h
    · split
      · exact h
      · split
        · exact h
        · next r1 hr1 =>
          split
          · exact h
          · next bk hfb =>
            exact availOk_saveBook h
              (BookOk_applySave (BookOk_cancelReservation
                (h bk (mem_of_findBook hfb))))

theorem availOk_processQueue (db : DB) (now : Int) (bid : Nat)
    (h : availOk db) : availOk (processReservationQueue db now bid).2 := by
  unfold processReservationQueue
  try dsimp only
  split
  · exact h
  · next book hf =>
    split
    · exact h
    · split
      · exact h
      · next nxt hmin =>
        split
        · exact h
        · next n1 hn1 =>
          split
          · exact h
          · next db2 hins =>
            exact availOk_saveBook
              (availOk_of_books_eq (insertBorrow_ok hins).1 h)
              (BookOk_applySave (BookOk_borrowCopy
                (h book (mem_of_findBook hf))))

theorem availOk_cleanupStep {db : DB} (snap : Reservation) (h : availOk db) :
    availOk (cleanupStep db snap) := by
  unfold cleanupStep
  try dsimp only
  split
  · exact h
  · next bk hfb =>
    exact availOk_saveBook h
      (BookOk_applySave (BookOk_cancelReservation (h bk (mem_of_findBook hfb))))

theorem availOk_cleanup (db : DB) (now : Int) (h : availOk db) :
    availOk (cleanupExpiredReservations db now).2 := by
  unfold cleanupExpiredReservations
  try dsimp only
  generalize (db.reservations.filter (fun r =>
    r.status == .active && decide (r.expiryDate < now) && r.isActive)) = l
  induction l generalizing db with
  | nil => exact h
  | cons r rs ih => exact ih (cleanupStep db r) (availOk_cleanupStep r h)

theorem availOk_applyOp (db : DB) (op : Op) (h : availOk db) :
    availOk (applyOp db op) := by
  cases op with
  | borrowOp now u b => exact availOk_borrowBook db now u b h
  | returnOp now u role id notes =>
    exact availOk_returnBookRoute db now u role id notes h
  | renewOp now u role id => exact availOk_renewBookRoute db now u role id h
  | reserveOp now u b => exact availOk_createReservation db now u b h
  | cancelOp now u role id =>
    exact availOk_cancelReservationRoute db now u role id h
  | fulfillOp now b => exact availOk_processQueue db now b h
  | expireOp now => exact availOk_cleanup db now h

/-- C5.  Inventory safety: `0 ≤ availableCopies ≤ totalCopies` is
preserved by every sequence of modelled operations (borrow, return,
renew, reserve, cancel, queue fulfillment, expiry sweep); the borrow
decrement reports success only from a positive counter, and the return
increment never pushes the counter past `totalCopies`. -/
theorem inventory_invariant (db : DB) (ops : List Op) (h : availOk db) :
    availOk (applyOps db ops) ∧
    (∀ bk : Book, (bk.borrowCopy).2 = true → 0 < bk.availableCopies) ∧
    (∀ bk : Book, bk.availableCopies ≤ bk.totalCopies →
      (bk.returnCopy).1.availableCopies ≤ bk.totalCopies) := by
  refine ⟨?_, ?_, ?_⟩
  · induction ops generalizing db with
    | nil => exact h
    | cons op rest ih => exact ih (applyOp db op) (availOk_applyOp db op h)
  · intro bk hbk
    by_cases h0 : 0 < bk.availableCopies
    · exact h0
    · unfold Book.borrowCopy at hbk
      rw [if_neg h0] at hbk
      simp at hbk
  · intro bk hb
    unfold Book.returnCopy
    split
    · dsimp only
      omega
    · exact hb

/-- C5 witness: the invariant holds along a concrete four-operation run
from the Scenario E store. -/
theorem inventory_invariant_witness :
    availOk (applyOps dbE [Op.returnOp (2 * dayMs) 1 .member 10 "",
      Op.borrowOp (3 * dayMs) 5 0, Op.reserveOp (4 * dayMs) 6 0,
      Op.expireOp (20 * dayMs)]) :=
  (inventory_invariant dbE [Op.returnOp (2 * dayMs) 1 .member 10 "",
      Op.borrowOp (3 * dayMs) 5 0, Op.reserveOp (4 * dayMs) 6 0,
      Op.expireOp (20 * dayMs)]
    (by intro b hb
        rw [List.mem_singleton.mp hb]
        exact ⟨by decide, by decide⟩)).1

/-! ## Loan uniqueness over operation sequences -/

theorem eq_of_mem_of_unique_ids {l : List Borrow}
    (hp : List.Pairwise LoanRel l) {x y : Borrow}
    (hx : x ∈ l) (hy : y ∈ l) (hxy : x.id = y.id) : x = y := by
  induction l with
  | nil => cases hx
  | cons z zs ih =>
    rcases List.mem_cons.mp hx with rfl | hx'
    · rcases List.mem_cons.mp hy with rfl | hy'
      · rfl
      · exact absurd hxy ((List.pairwise_cons.mp hp).1 y hy').1
    · rcases List.mem_cons.mp hy with rfl | hy'
      · exact absurd hxy.symm ((List.pairwise_cons.mp hp).1 x hx').1
      · exact ih (List.pairwise_cons.mp hp).2 hx' hy'

theorem atMostOne_of_loanInv {db : DB} (h : loanInv db) :
    atMostOneActivePer db := by
  unfold atMostOneActivePer
  apply List.Pairwise.imp_of_mem ?_ h.2
  intro a b ha hb hrel
  rintro ⟨hu, hbk, hsa, hsb⟩
  have hna := (h.1 a ha).2.1
  have hnb := (h.1 b hb).2.1
  rcases hsa with hsa | hsa
  · rcases hsb with hsb | hsb
    · exact hrel.2 ⟨hu, hbk, hsa, hsb⟩
    · exact hnb hsb
  · exact hna hsa

theorem loanInv_insertBorrow {db : DB} {b : Borrow} {db' : DB}
    (hinv : loanInv db) (hok : insertBorrow db b = .ok db')
    (hactive : b.isActive = true) (hnover : b.status ≠ .overdue)
    (hid : b.id = db.nextBorrowId) : loanInv db' := by
  obtain ⟨hbooks, hbor, hnext, hres⟩ := insertBorrow_ok hok
  have hguard : db.borrows.any (fun l => borrowKeyClash l b) = false := by
    unfold insertBorrow at hok
    split at hok
    · cases hok
    · next hg => exact Bool.eq_false_iff.mpr hg
  constructor
  · intro l hl
    rw [hbor] at hl
    rcases List.mem_append.mp hl with hl' | hl'
    · obtain ⟨h1, h2, h3⟩ := hinv.1 l hl'
      exact ⟨h1, h2, by rw [hnext]; omega⟩
    · rw [List.mem_singleton.mp hl']
      exact ⟨hactive, hnover, by rw [hnext, hid]; omega⟩
  · rw [hbor, List.pairwise_append]
    refine ⟨hinv.2, List.pairwise_singleton _ _, ?_⟩
    intro l hl b' hb'
    rw [List.mem_singleton.mp hb']
    have hcl := List.any_eq_false.mp hguard l hl
    constructor
    · have := (hinv.1 l hl).2.2
      omega
    · rintro ⟨hu, hbk2, hs1, hs2⟩
      have hla := (hinv.1 l hl).1
      simp [borrowKeyClash, hu, hbk2, hs1, hs2, hla, hactive] at hcl

theorem loanInv_saveBorrow {db : DB} {b0 b1 : Borrow}
    (hinv : loanInv db) (hmem : b0 ∈ db.borrows)
    (hid : b1.id = b0.id) (huser : b1.user = b0.user)
    (hbook : b1.book = b0.book) (hactive : b1.isActive = true)
    (hnover : b1.status ≠ .overdue)
    (hbstat : b1.status = .borrowed → b0.status = .borrowed) :
    loanInv (saveBorrow db b1) := by
  constructor
  · intro l hl
    rcases List.mem_map.mp hl with ⟨y, hy, rfl⟩
    by_cases hcond : (y.id == b1.id) = true
    · rw [if_pos hcond]
      refine ⟨hactive, hnover, ?_⟩
      have h3 := (hinv.1 b0 hmem).2.2
      show b1.id < db.nextBorrowId
      omega
    · rw [if_neg hcond]
      exact hinv.1 y hy
  · show List.Pairwise LoanRel (db.borrows.map
      (fun x => if x.id == b1.id then b1 else x))
    rw [List.pairwise_map]
    apply List.Pairwise.imp_of_mem ?_ hinv.2
    intro a c ha hc hrel
    by_cases hA : (a.id == b1.id) = true
    · have haeq : a = b0 :=
        eq_of_mem_of_unique_ids hinv.2 ha hmem
          (by rw [← hid]; exact beq_iff_eq.mp hA)
      by_cases hC : (c.id == b1.id) = true
      · exact absurd (by
          have h1 := beq_iff_eq.mp hA
          have h2 := beq_iff_eq.mp hC
          omega) hrel.1
      · simp only [if_pos hA, if_neg hC]
        refine ⟨?_, ?_⟩
        · have h1 := beq_iff_eq.mp hA
          have h2 : ¬ c.id = b1.id := by
            intro hc'
            exact hC (beq_iff_eq.mpr hc')
          omega
        · rintro ⟨hu, hb, hs1, hs2⟩
          apply hrel.2
          rw [haeq]
          exact ⟨by rw [← huser]; exact hu, by rw [← hbook]; exact hb,
            hbstat hs1, hs2⟩
    · by_cases hC : (c.id == b1.id) = true
      · have hceq : c = b0 :=
          eq_of_mem_of_unique_ids hinv.2 hc hmem
            (by rw [← hid]; exact beq_iff_eq.mp hC)
        simp only [if_neg hA, if_pos hC]
        refine ⟨?_, ?_⟩
        · have h2 := beq_iff_eq.mp hC
          have h1 : ¬ a.id = b1.id := by
            intro ha'
            exact hA (beq_iff_eq.mpr ha')
          omega
        · rintro ⟨hu, hb, hs1, hs2⟩
          apply hrel.2
          rw [hceq]
          exact ⟨by rw [hu, huser], by rw [hb, hbook], hs1, hbstat hs2⟩
      · simp only [if_neg hA, if_neg hC]
        exact hrel

theorem loanInv_borrowBook (db : DB) (now : Int) (u bid : Nat)
    (h : loanInv db) : loanInv (borrowBook db now u bid).2 := by
  unfold borrowBook borrowCommit
  try dsimp only
  split
  · exact h
  · next book hf =>
    split
    · exact h
    · split
      · exact h
      · split
        · exact h
        · split
          · exact h
          · next db1 hins =>
            rw [mkBorrow_applySave] at hins
            have hnew : loanInv db1 :=
              loanInv_insertBorrow h hins rfl (by simp [mkBorrow]) rfl
            exact hnew

theorem loanInv_returnRoute (db : DB) (now : Int) (u : Nat) (role : Role)
    (bid : Nat) (notes : String) (h : loanInv db) :
    loanInv (returnBookRoute db now u role bid notes).2 := by
  unfold returnBookRoute
  try dsimp only
  split
  · exact h
  · next borrow hfind =>
    split
    · exact h
    · split
      · exact h
      · split
        · exact h
        · next b1 hb1 =>
          have hmem : borrow ∈ db.borrows := List.mem_of_find?_eq_some hfind
          have hb1c : b1.id = borrow.id ∧ b1.user = borrow.user
              ∧ b1.book = borrow.book ∧ b1.isActive = borrow.isActive
              ∧ b1.status = .returned := by
            unfold Borrow.returnBook at hb1
            split at hb1
            · cases hb1
            · dsimp only at hb1
              split at hb1
              · cases hb1
                exact ⟨rfl, rfl, rfl, rfl, rfl⟩
              · cases hb1
                exact ⟨rfl, rfl, rfl, rfl, rfl⟩
          have hsave : b1.applySave now = b1 := by
            unfold Borrow.applySave
            rw [if_neg]
            simp [hb1c.2.2.2.2]
          have hres : loanInv (saveBorrow db (b1.applySave now)) := by
            rw [hsave]
            refine loanInv_saveBorrow h hmem hb1c.1 hb1c.2.1 hb1c.2.2.1 ?_ ?_ ?_
            · rw [hb1c.2.2.2.1]
              exact (h.1 borrow hmem).1
            · rw [hb1c.2.2.2.2]
              simp
            · intro hs
              rw [hb1c.2.2.2.2] at hs
              simp at hs
          split
          · exact hres
          · exact hres

theorem loanInv_renewRoute (db : DB) (now : Int) (u : Nat) (role : Role)
    (bid : Nat) (h : loanInv db) :
    loanInv (renewBookRoute db now u role bid).2 := by
  unfold renewBookRoute
  try dsimp only
  split
  · exact h
  · next borrow hfind =>
    split
    · exact h
    · split
      · exact h
      · next hcr =>
        split
        · exact h
        · next b1 hb1 =>
          have hmem : borrow ∈ db.borrows := List.mem_of_find?_eq_some hfind
          have hcanr : borrow.canRenew now = true := by
            rcases Bool.eq_false_or_eq_true (borrow.canRenew now) with ht | hf
            · exact ht
            · exact absurd (by rw [hf]; rfl) hcr
          have hstat : borrow.status = .borrowed ∧ now < borrow.dueDate := by
            unfold Borrow.canRenew at hcanr
            simp only [Bool.and_eq_true, beq_iff_eq, decide_eq_true_eq]
              at hcanr
            exact ⟨hcanr.1.1, hcanr.2⟩
          have hb1c : b1 = { borrow with
              dueDate := borrow.dueDate + RENEWAL_DURATION_DAYS * dayMs,
              renewals := borrow.renewals + 1,
              renewalHistory := borrow.renewalHistory
                ++ [{ renewalDate := now,
                      newDueDate := borrow.dueDate
                        + RENEWAL_DURATION_DAYS * dayMs,
                      renewedBy := u }] } := by
            unfold Borrow.renewBook at hb1
            rw [if_pos hcanr] at hb1
            cases hb1
            rfl
          have hsave : b1.applySave now = b1 := by
            unfold Borrow.applySave
            rw [if_neg]
            intro hcond
            rw [hb1c] at hcond
            simp only [Bool.and_eq_true, decide_eq_true_eq] at hcond
            have hlt := hcond.2
            have h7 : (0:Int) < RENEWAL_DURATION_DAYS * dayMs := by
              norm_num [RENEWAL_DURATION_DAYS, dayMs]
            have := hstat.2
            omega
          rw [hsave]
          refine loanInv_saveBorrow h hmem (by rw [hb1c]) (by rw [hb1c])
            (by rw [hb1c]) ?_ ?_ ?_
          · rw [hb1c]
            exact (h.1 borrow hmem).1
          · rw [hb1c]
            show borrow.status ≠ .overdue
            rw [hstat.1]
            simp
          · intro _
            exact hstat.1

theorem loanInv_processQueue (db : DB) (now : Int) (bid : Nat)
    (h : loanInv db) : loanInv (processReservationQueue db now bid).2 := by
  unfold processReservationQueue
  try dsimp only
  split
  · exact h
  · next book hf =>
    split
    · exact h
    · split
      · exact h
      · next nxt hmin =>
        split
        · exact h
        · next n1 hn1 =>
          split
          · exact h
          · next db2 hins =>
            rw [mkBorrow_applySave] at hins
            have hnew : loanInv db2 :=
              loanInv_insertBorrow
                (show loanInv (saveReservation db (n1.applySave now)) from h)
                hins rfl (by simp [mkBorrow]) rfl
            exact hnew

theorem loanInv_createReservation (db : DB) (now : Int) (u bid : Nat)
    (h : loanInv db) : loanInv (createReservation db now u bid).2 := by
  unfold createReservation
  try dsimp only
  split
  · exact h
  · split
    · exact h
    · split
      · exact h
      · exact h

theorem loanInv_cancelRoute (db : DB) (now : Int) (u : Nat) (role : Role)
    (rid : Nat) (h : loanInv db) :
    loanInv (cancelReservationRoute db now u role rid).2 := by
  unfold cancelReservationRoute
  try dsimp only
  split
  · exact h
  · split
    · exact h
    · split
      · exact h
      · split
        · exact h
        · split
          · exact h
          · exact h

theorem loanInv_cleanupStep {db : DB} (snap : Reservation) (h : loanInv db) :
    loanInv (cleanupStep db snap) := by
  unfold cleanupStep
  try dsimp only
  split
  · exact h
  · exact h

theorem loanInv_cleanup (db : DB) (now : Int) (h : loanInv db) :
    loanInv (cleanupExpiredReservations db now).2 := by
  unfold cleanupExpiredReservations
  try dsimp only
  generalize (db.reservations.filter (fun r =>
    r.status == .active && decide (r.expiryDate < now) && r.isActive)) = l
  induction l generalizing db with
  | nil => exact h
  | cons r rs ih => exact ih (cleanupStep db r) (loanInv_cleanupStep r h)

theorem loanInv_applyOp (db : DB) (op : Op) (h : loanInv db) :
    loanInv (applyOp db op) := by
  cases op with
  | borrowOp now u b => exact loanInv_borrowBook db now u b h
  | returnOp now u role id notes =>
    exact loanInv_returnRoute db now u role id notes h
  | renewOp now u role id => exact loanInv_renewRoute db now u role id h
  | reserveOp now u b => exact loanInv_createReservation db now u b h
  | cancelOp now u role id => exact loanInv_cancelRoute db now u role id h
  | fulfillOp now b => exact loanInv_processQueue db now b h
  | expireOp now => exact loanInv_cleanup db now h

/-- C2 counterexample.  User 1 already holds the borrowed loan on book 0
— its single copy, so `availableCopies` is 0 — yet a second borrow by
user 1 fails with the Unavailable outcome (400), not the claimed
Conflict (409): the handler checks availability before the
duplicate-loan check. -/
theorem borrow_conflict_shadowed_by_unavailable :
    loanE.user = 1 ∧ loanE.book = 0 ∧ loanE.status = .borrowed ∧
    loanE ∈ dbE.borrows ∧
    (borrowBook dbE dayMs 1 0).1 = .notAvailable ∧
    (borrowBook dbE dayMs 1 0).1 ≠ .alreadyBorrowed := by
  decide

/-- C2 amended.  Loan uniqueness: along every sequence of modelled
operations at most one loan per `(user, book)` pair has status `borrowed`
or `overdue` (the operations never store `overdue`, and both the
handler's duplicate check and the unique partial index key on `borrowed`
loans), and a borrow request by a user already holding such a loan on the
book never creates a loan — it fails with the 409 Conflict outcome
exactly when the book passes the availability check that the handler runs
first, and with another error (Unavailable, NotFound) otherwise. -/
theorem borrow_unique_active (db : DB) (ops : List Op) (h : loanInv db) :
    atMostOneActivePer (applyOps db ops) ∧
    (∀ now : Int, ∀ u bid : Nat, ∀ l : Borrow, l ∈ db.borrows →
      l.user = u → l.book = bid →
      (l.status = .borrowed ∨ l.status = .overdue) →
      ((∀ i, (borrowBook db now u bid).1 ≠ .created i) ∧
       (∀ bk, findBook db bid = some bk → bk.isBookAvailable = true →
         (borrowBook db now u bid).1 = .alreadyBorrowed))) := by
  constructor
  · have hinv : loanInv (applyOps db ops) := by
      induction ops generalizing db with
      | nil => exact h
      | cons op rest ih => exact ih (applyOp db op) (loanInv_applyOp db op h)
    exact atMostOne_of_loanInv hinv
  · intro now u bid l hl hu hb hs
    have hnover := (h.1 l hl).2.1
    have hstat : l.status = .borrowed := by
      rcases hs with hs | hs
      · exact hs
      · exact absurd hs hnover
    have hactive := (h.1 l hl).1
    have hdup : ∀ book : Book, book.id = bid →
        hasActiveBorrowed db u book.id = true := by
      intro book hbid
      rw [hbid]
      refine List.any_eq_true.mpr ⟨l, hl, ?_⟩
      simp [hu, hb, hstat, hactive]
    constructor
    · intro i
      unfold borrowBook borrowCommit
      split
      · simp
      · next book hfb =>
        have hbid : book.id = bid := by simpa using List.find?_some hfb
        split
        · simp
        · rw [if_pos (hdup book hbid)]
          simp
    · intro bk hfb havail
      have hbid : bk.id = bid := by simpa using List.find?_some hfb
      simp only [borrowBook, hfb, borrowCommit, havail, Bool.not_true,
        Bool.false_eq_true, if_false]
      rw [if_pos (hdup bk hbid)]

/-- C2 witness: in a store where user 1 holds a borrowed loan on the
available book 0, uniqueness holds after a further borrow by user 2, and
a second borrow by user 1 is answered with the Conflict outcome. -/
theorem borrow_unique_active_witness :
    atMostOneActivePer (applyOps dbW [Op.borrowOp 0 2 0]) ∧
    (borrowBook dbW 0 1 0).1 = .alreadyBorrowed := by
  have h := borrow_unique_active dbW [Op.borrowOp 0 2 0]
    (by constructor
        · intro l hl
          rw [List.mem_singleton.mp hl]
          exact ⟨rfl, by decide, by decide⟩
        · exact List.pairwise_singleton _ _)
  exact ⟨h.1, (h.2 0 1 0 loanW (List.mem_singleton_self loanW) rfl rfl
    (Or.inl rfl)).2 bookW (by decide) (by decide)⟩
